import Mathlib

/-!
Verification of the GPA-calculator core (transcript normalizer and GPA
aggregator) against its natural-language specification.

The embedding mirrors `gpa_calculator/utils.py`:

* `unify_n_fillna` embeds `_unify_n_fillna`.  A DataFrame freshly read from a
  transcript file carries the integer range index `0, 1, ..., n-1`, so a table
  is a list of (label, row) pairs produced by `enumFromL 0`; every cell is an
  `Option String` (pandas `NaN` is `none`).  Pandas raises `KeyError` when
  `drop` or `.loc` is given a label that is not in the index, so the embedding
  returns `Except String _` and those paths are `Except.error`.
* `calculating_gpa` embeds `calculating_gpa`.  Records carry exact rationals
  for credit and grade.  The unguarded floating-point division at the end of
  the Python function produces `nan` when the credit sum is zero; the
  embedding makes that branch explicit as the `GPAResult.divByZero`
  constructor, `None` (the missing-semester return) is `GPAResult.noResult`,
  and every numeric result is `GPAResult.score`.
-/

namespace GPACalc

/-- One row of the raw transcript table, with the ten columns of
`COLUMNS_FORMAT`.  A cell is `none` when the DataFrame holds `NaN` there. -/
structure Row where
  no : Option String
  term : Option String
  semester : Option String
  subjectCode : Option String
  prerequisite : Option String
  replacedSubject : Option String
  subjectName : Option String
  credit : Option String
  grade : Option String
  status : Option String
  deriving DecidableEq

/-- The six sequential column promotions of the sub-table unification step
(`content.loc[sub_idx, dest[i]] = content.loc[sub_idx, source[i]]` for the
source/dest lists in `_unify_n_fillna`), followed by `Term = 0` and the
blanking of `prerequisite` and `Replaced Subject`.  The `let` chain performs
the assignments in the Python order. -/
def remapRow (r : Row) : Row :=
  let r1 := { r  with status := r.subjectName }
  let r2 := { r1 with grade := r1.replacedSubject }
  let r3 := { r2 with credit := r2.prerequisite }
  let r4 := { r3 with subjectName := r3.subjectCode }
  let r5 := { r4 with subjectCode := r4.semester }
  let r6 := { r5 with semester := r5.term }
  { r6 with term := some "0", prerequisite := none, replacedSubject := none }

/-- The fill step of `_unify_n_fillna`: a missing Credit or Grade becomes 0. -/
def fillRow (r : Row) : Row :=
  { r with credit := some (r.credit.getD "0"), grade := some (r.grade.getD "0") }

/-- The assignment `content.loc[missing_credit_idx, 'Credit'] = 0` and the
Grade analogue,
applied to the whole labelled table. -/
def fillna (content : List (ℕ × Row)) : List (ℕ × Row) :=
  content.map (fun x => (x.1, fillRow x.2))

/-- The index labels of a table, in order (`content.index`). -/
def labels (content : List (ℕ × Row)) : List ℕ :=
  content.map Prod.fst

/-- The labels `content[content.<col>.isna()].index` for the column selected
by `p`. -/
def isnaIdx (p : Row → Option String) (content : List (ℕ × Row)) : List ℕ :=
  labels (content.filter (fun x => (p x.2).isNone))

/-- The drop `content.drop(idx, axis=0)`: pandas raises `KeyError` when some
label of
`idx` is absent from the index, otherwise removes exactly those rows. -/
def dropLabels (content : List (ℕ × Row)) (idx : List ℕ) :
    Except String (List (ℕ × Row)) :=
  if idx.all (fun l => decide (l ∈ labels content)) then
    Except.ok (content.filter (fun x => !(decide (x.1 ∈ idx))))
  else
    Except.error "KeyError"

/-- The remapping block of `_unify_n_fillna`: `sub_idx` is
`pd.RangeIndex(first, size_orig, 1)`; `.loc` raises `KeyError` when a label of
`sub_idx` is missing from the index, otherwise every row whose label lies in
`sub_idx` is promoted by `remapRow`. -/
def subTableRemap (content : List (ℕ × Row)) (first size_orig : ℕ) :
    Except String (List (ℕ × Row)) :=
  let sub_idx := List.range' first (size_orig - first)
  if sub_idx.all (fun l => decide (l ∈ labels content)) then
    Except.ok (content.map (fun x =>
      if decide (x.1 ∈ sub_idx) then (x.1, remapRow x.2) else x))
  else
    Except.error "KeyError"

/-- The function `_unify_n_fillna` up to (but not including) the final fill
of missing
credits and grades, following the Python control flow: compute the blank-`No`
labels; if there are any, drop them, shift by one, drop again, shift again and
remap from the first shifted label; otherwise fall back to the blank-`Status`
labels and remap from the first one (no rows dropped on this path). -/
def unifyCore (content : List (ℕ × Row)) : Except String (List (ℕ × Row)) :=
  let space_idx := isnaIdx Row.no content
  let size_orig := content.length
  if 0 < space_idx.length then
    match dropLabels content space_idx with
    | Except.error e => Except.error e
    | Except.ok c1 =>
      match dropLabels c1 (space_idx.map (fun l => l + 1)) with
      | Except.error e => Except.error e
      | Except.ok c2 =>
        let space_idx2 := (space_idx.map (fun l => l + 1)).map (fun l => l + 1)
        if 0 < space_idx2.length then
          subTableRemap c2 (space_idx2.headD 0) size_orig
        else
          Except.ok c2
  else
    let space_idx2 := isnaIdx Row.status content
    if 0 < space_idx2.length then
      subTableRemap content (space_idx2.headD 0) size_orig
    else
      Except.ok content

/-- The function `_unify_n_fillna`: sub-table unification followed by the
credit and grade
fill, which the Python function applies on every non-raising path. -/
def unify_n_fillna (content : List (ℕ × Row)) :
    Except String (List (ℕ × Row)) :=
  (unifyCore content).map fillna

/-- Label the rows of a raw table with consecutive integers starting at `n`
(the `RangeIndex` a freshly read DataFrame carries). -/
def enumFromL (n : ℕ) : List Row → List (ℕ × Row)
  | [] => []
  | r :: rs => (n, r) :: enumFromL (n + 1) rs

/-- The normalizer on a raw table: attach the fresh `RangeIndex` and run
`_unify_n_fillna`. -/
def normalize (content : List Row) : Except String (List (ℕ × Row)) :=
  unify_n_fillna (enumFromL 0 content)

/-! ### GPA aggregator -/

/-- A normalized academic record, with the fields `calculating_gpa` reads. -/
structure GRecord where
  subjectCode : String
  semester : String
  status : String
  credit : ℚ
  grade : ℚ
  deriving DecidableEq

/-- The test `code.find(sub) > -1` on Python strings: `sub` occurs somewhere
in
`code` (substring containment, not an anchored prefix match). -/
def hasSubstr (code sub : String) : Bool :=
  decide (sub.data <:+: code.data)

/-- The exemption loop of `calculating_gpa`: for each exemption subject in
turn, drop every record whose `Subject Code` contains it as a substring. -/
def exemptionFilter (exemption_list : List String) (td : List GRecord) :
    List GRecord :=
  exemption_list.foldl
    (fun transcript_data subject =>
      transcript_data.filter (fun r => !(hasSubstr r.subjectCode subject)))
    td

/-- Python truthiness of the optional `semester_name` argument: `None` and
the empty string are falsy. -/
def truthy : Option String → Bool
  | none => false
  | some s => s != ""

/-- The semester restriction of `calculating_gpa`
(`transcript_data.query('Semester == @semester_name')`), applied exactly when
`mode == "one semester" and semester_name` is truthy; exact string equality. -/
def semesterFilter (mode : String) (semester_name : Option String)
    (td : List GRecord) : List GRecord :=
  if (mode == "one semester") && truthy semester_name then
    td.filter (fun r => decide (r.semester = semester_name.getD ""))
  else td

/-- The status row test of
`query('Status != @studying and Status != @not_start')`, negated: a record is
excluded when its status is `Studying` or `Not started`. -/
def excludedStatus (r : GRecord) : Bool :=
  r.status == "Studying" || r.status == "Not started"

/-- Keep only already-studied subjects. -/
def statusFilter (td : List GRecord) : List GRecord :=
  td.filter (fun r => !(excludedStatus r))

/-- Result of `calculating_gpa`: the Python function returns `None` when the
semester name is missing in one-semester mode (`noResult`), produces an IEEE
`nan` via the unguarded division when the credit sum is zero (`divByZero`),
and otherwise returns a number (`score`). -/
inductive GPAResult where
  | noResult
  | divByZero
  | score (q : ℚ)
  deriving DecidableEq

/-- The tail of `calculating_gpa` after the exemption and semester filters:
drop in-progress rows, return 0 on an empty table, otherwise divide the
credit-weighted grade sum by the credit sum; the zero-divisor branch of that
division is made explicit. -/
def finishGPA (transcript_data : List GRecord) : GPAResult :=
  let td := statusFilter transcript_data
  if td.length = 0 then GPAResult.score 0
  else
    let total_weighted_grades := (td.map (fun r => r.grade * r.credit)).sum
    let total_credits := (td.map (fun r => r.credit)).sum
    if total_credits = 0 then GPAResult.divByZero
    else GPAResult.score (total_weighted_grades / total_credits)

/-- The function `calculating_gpa(transcript_data_orig, mode, exemption_list,
semester_name)` from `gpa_calculator/utils.py`. -/
def calculating_gpa (transcript_data_orig : List GRecord) (mode : String)
    (exemption_list : List String) (semester_name : Option String) :
    GPAResult :=
  let transcript_data := exemptionFilter exemption_list transcript_data_orig
  if (mode == "one semester") && truthy semester_name then
    finishGPA (semesterFilter mode semester_name transcript_data)
  else if (mode == "one semester") && semester_name.isNone then
    GPAResult.noResult
  else
    finishGPA transcript_data

/-- The record set `calculating_gpa` aggregates over on its computing paths:
the transcript after the exemption, semester and status filters. -/
def filteredRecords (td : List GRecord) (mode : String)
    (exemption_list : List String) (semester_name : Option String) :
    List GRecord :=
  statusFilter (semesterFilter mode semester_name
    (exemptionFilter exemption_list td))

/-! ### Concrete records used in scenarios -/

/-- The record `{code:"CSC101", credit:3, grade:4.0, status:"Completed",
semester:"Fall2023"}` from the spec scenario. -/
def csc101 : GRecord :=
  { subjectCode := "CSC101", semester := "Fall2023", status := "Completed",
    credit := 3, grade := 4 }

/-- The record `{code:"MAT101", credit:3, grade:3.0, status:"Completed",
semester:"Spring2024"}` from the spec scenario. -/
def mat101 : GRecord :=
  { subjectCode := "MAT101", semester := "Spring2024", status := "Completed",
    credit := 3, grade := 3 }

/-- A completed Fall2024 record, for the semester-exclusion scenario. -/
def phy201 : GRecord :=
  { subjectCode := "PHY201", semester := "Fall2024", status := "Completed",
    credit := 3, grade := 2 }

/-- A completed record carrying zero credit. -/
def zeroCreditRec : GRecord :=
  { subjectCode := "PHY100", semester := "Fall2023", status := "Completed",
    credit := 0, grade := 4 }

/-- A second completed record carrying zero credit. -/
def zeroCreditRecB : GRecord :=
  { subjectCode := "BIO100", semester := "Fall2023", status := "Completed",
    credit := 0, grade := 3 }

/-- An in-progress record. -/
def studyingRec : GRecord :=
  { subjectCode := "CHE100", semester := "Fall2024", status := "Studying",
    credit := 3, grade := 0 }

/-- A record survives the exemption loop iff no exemption subject occurs in
its subject code. -/
def passesExemption (el : List String) (r : GRecord) : Bool :=
  el.all (fun s => !(hasSubstr r.subjectCode s))

/-! ### Concrete raw rows used in normalizer scenarios -/

/-- A fully populated main-table row. -/
def crMain : Row :=
  { no := some "1", term := some "1", semester := some "Fall2023",
    subjectCode := some "CSC101", prerequisite := none, replacedSubject := none,
    subjectName := some "Intro CS", credit := some "3", grade := some "4",
    status := some "Completed" }

/-- A sub-table row in the shifted column layout: `No` present, `Status`
blank, the status/grade/credit data sitting in the alternate columns. -/
def crSub1 : Row :=
  { no := some "2", term := some "Fall2024", semester := some "CHE100",
    subjectCode := some "Chemistry", prerequisite := some "3",
    replacedSubject := none, subjectName := some "Studying", credit := none,
    grade := none, status := none }

/-- A second shifted sub-table row. -/
def crSub2 : Row :=
  { no := some "3", term := some "Fall2024", semester := some "PHY100",
    subjectCode := some "Physics", prerequisite := some "2",
    replacedSubject := some "4", subjectName := some "Retaken", credit := none,
    grade := none, status := none }

/-- A third shifted sub-table row. -/
def crSub3 : Row :=
  { no := some "4", term := some "Spring2025", semester := some "BIO100",
    subjectCode := some "Biology", prerequisite := some "3",
    replacedSubject := none, subjectName := some "Not started", credit := none,
    grade := none, status := none }

/-- A main-table row whose Credit and Grade cells are blank. -/
def crMissing : Row :=
  { no := some "2", term := some "1", semester := some "Fall2023",
    subjectCode := some "MAT101", prerequisite := none, replacedSubject := none,
    subjectName := some "Math", credit := none, grade := none,
    status := some "Completed" }

/-! ## Helper lemmas about the aggregator -/

theorem exemptionFilter_cons_subject (s : String) (el : List String)
    (td : List GRecord) :
    exemptionFilter (s :: el) td =
      exemptionFilter el (td.filter (fun r => !(hasSubstr r.subjectCode s))) :=
  rfl

theorem exemptionFilter_subset (el : List String) (td : List GRecord) :
    ∀ r ∈ exemptionFilter el td, r ∈ td := by
  induction el generalizing td with
  | nil => intro r hr; exact hr
  | cons s el ih =>
    intro r hr
    rw [exemptionFilter_cons_subject] at hr
    exact List.mem_of_mem_filter
      (ih (td.filter (fun x => !(hasSubstr x.subjectCode s))) r hr)

theorem exemptionFilter_cons (el : List String) (r : GRecord)
    (td : List GRecord) :
    exemptionFilter el (r :: td) =
      if passesExemption el r then r :: exemptionFilter el td
      else exemptionFilter el td := by
  induction el generalizing td with
  | nil => simp [exemptionFilter, passesExemption]
  | cons s el ih =>
    simp only [exemptionFilter_cons_subject, List.filter_cons, passesExemption,
      List.all_cons]
    by_cases h : hasSubstr r.subjectCode s
    · simp [h, passesExemption]
    · simp [h, ih, passesExemption]

theorem statusFilter_cons_excluded {r : GRecord} (td : List GRecord)
    (h : excludedStatus r = true) :
    statusFilter (r :: td) = statusFilter td := by
  simp [statusFilter, h]

theorem finishGPA_congr {a b : List GRecord}
    (h : statusFilter a = statusFilter b) : finishGPA a = finishGPA b := by
  unfold finishGPA
  rw [h]

theorem finishGPA_statusFilter_nil {l : List GRecord}
    (h : statusFilter l = []) : finishGPA l = GPAResult.score 0 := by
  simp [finishGPA, h]

theorem finishGPA_ne_noResult (l : List GRecord) :
    decide (finishGPA l = GPAResult.noResult) = false := by
  simp only [finishGPA]
  split
  · rfl
  · split <;> rfl

theorem semesterFilter_cons_or (mode : String) (sem : Option String)
    (r : GRecord) (td : List GRecord) :
    semesterFilter mode sem (r :: td) = r :: semesterFilter mode sem td ∨
      semesterFilter mode sem (r :: td) = semesterFilter mode sem td := by
  unfold semesterFilter
  split
  · by_cases h : decide (r.semester = sem.getD "") = true
    · left; simp only [List.filter_cons, h, if_true]
    · right
      simp only [List.filter_cons, h]
      simp
  · left; rfl

theorem semesterFilter_cons_ne {mode : String} {sem : Option String}
    {r : GRecord} (td : List GRecord)
    (hc : ((mode == "one semester") && truthy sem) = true)
    (hr : decide (r.semester = sem.getD "") = false) :
    semesterFilter mode sem (r :: td) = semesterFilter mode sem td := by
  simp only [semesterFilter, hc, if_true, List.filter_cons, hr]
  simp

theorem semesterFilter_inactive {mode : String} {sem : Option String}
    (td : List GRecord)
    (hc : ((mode == "one semester") && truthy sem) = false) :
    semesterFilter mode sem td = td := by
  simp [semesterFilter, hc]

/-! ## Helper lemmas about the normalizer -/

theorem enumFromL_length (l : List Row) (n : ℕ) :
    (enumFromL n l).length = l.length := by
  induction l generalizing n with
  | nil => rfl
  | cons r l ih => simp [enumFromL, ih]

theorem enumFromL_append (A B : List Row) (n : ℕ) :
    enumFromL n (A ++ B) = enumFromL n A ++ enumFromL (n + A.length) B := by
  induction A generalizing n with
  | nil => simp [enumFromL]
  | cons a A ih =>
    show (n, a) :: enumFromL (n + 1) (A ++ B) =
      (n, a) :: (enumFromL (n + 1) A ++ enumFromL (n + (A.length + 1)) B)
    rw [ih, show n + 1 + A.length = n + (A.length + 1) from by omega]

theorem mem_enumFromL {x : ℕ × Row} {l : List Row} {n : ℕ}
    (h : x ∈ enumFromL n l) : n ≤ x.1 ∧ x.1 < n + l.length ∧ x.2 ∈ l := by
  induction l generalizing n with
  | nil => cases h
  | cons r l ih =>
    rcases List.mem_cons.mp h with h | h
    · subst h
      refine ⟨Nat.le_refl _, by simp, List.mem_cons_self _ _⟩
    · have hb := ih h
      exact ⟨by omega, by simp only [List.length_cons]; omega,
        List.mem_cons_of_mem _ hb.2.2⟩

theorem labels_enumFromL (l : List Row) (n : ℕ) :
    labels (enumFromL n l) = List.range' n l.length := by
  induction l generalizing n with
  | nil => rfl
  | cons r l ih =>
    show n :: labels (enumFromL (n + 1) l) = List.range' n (l.length + 1)
    rw [List.range'_succ, ih]

theorem labels_append (X Y : List (ℕ × Row)) :
    labels (X ++ Y) = labels X ++ labels Y := by
  simp [labels]

theorem isnaIdx_append (p : Row → Option String) (X Y : List (ℕ × Row)) :
    isnaIdx p (X ++ Y) = isnaIdx p X ++ isnaIdx p Y := by
  simp [isnaIdx, labels, List.filter_append]

theorem isnaIdx_cons (p : Row → Option String) (x : ℕ × Row)
    (t : List (ℕ × Row)) :
    isnaIdx p (x :: t) =
      if (p x.2).isNone then x.1 :: isnaIdx p t else isnaIdx p t := by
  simp only [isnaIdx, labels, List.filter_cons]
  split
  · simp
  · rfl

theorem isnaIdx_enumFromL_eq_nil (p : Row → Option String) (l : List Row)
    (n : ℕ) (h : ∀ r ∈ l, p r ≠ none) : isnaIdx p (enumFromL n l) = [] := by
  have hf : (enumFromL n l).filter (fun x => (p x.2).isNone) = [] := by
    rw [List.filter_eq_nil_iff]
    intro x hx hcontra
    rw [Option.isNone_iff_eq_none] at hcontra
    exact h x.2 (mem_enumFromL hx).2.2 hcontra
  rw [isnaIdx, hf]
  rfl

theorem filter_enumFromL_true (l : List Row) (n : ℕ) (f : ℕ × Row → Bool)
    (h : ∀ x ∈ enumFromL n l, f x = true) :
    (enumFromL n l).filter f = enumFromL n l :=
  List.filter_eq_self.mpr h

theorem map_enumFromL_id (l : List Row) (n : ℕ) (g : ℕ × Row → ℕ × Row)
    (h : ∀ x ∈ enumFromL n l, g x = x) :
    (enumFromL n l).map g = enumFromL n l := by
  induction l generalizing n with
  | nil => rfl
  | cons r l ih =>
    show g (n, r) :: (enumFromL (n + 1) l).map g = (n, r) :: enumFromL (n + 1) l
    rw [h (n, r) (List.mem_cons_self _ _),
      ih (n + 1) (fun x hx => h x (List.mem_cons_of_mem _ hx))]

theorem subTableRemap_compute (A T : List Row) (k : ℕ) (hk : A.length ≤ k) :
    subTableRemap (enumFromL 0 A ++ enumFromL k T) k (k + T.length) =
      Except.ok (enumFromL 0 A ++
        (enumFromL k T).map (fun x => (x.1, remapRow x.2))) := by
  have hsub : k + T.length - k = T.length := by omega
  have hlab : labels (enumFromL 0 A ++ enumFromL k T) =
      List.range' 0 A.length ++ List.range' k T.length := by
    rw [labels_append, labels_enumFromL, labels_enumFromL]
  have hall : ((List.range' k T.length).all
      (fun l => decide (l ∈ labels (enumFromL 0 A ++ enumFromL k T)))) =
        true := by
    rw [List.all_eq_true]
    intro l hl
    rw [decide_eq_true_eq, hlab]
    exact List.mem_append_right _ hl
  simp only [subTableRemap, hsub, hall]
  rw [if_true, List.map_append]
  congr 1
  congr 1
  · apply map_enumFromL_id
    intro x hx
    have hb2 := (mem_enumFromL hx).2.1
    have hxm : ¬(x.1 ∈ List.range' k T.length) := by
      rw [List.mem_range'_1]
      omega
    simp [hxm]
  · apply List.map_congr_left
    intro x hx
    have hb1 := (mem_enumFromL hx).1
    have hb2 := (mem_enumFromL hx).2.1
    have hxm : x.1 ∈ List.range' k T.length := by
      rw [List.mem_range'_1]
      exact ⟨hb1, by omega⟩
    simp [hxm]

theorem unifyCore_status_branch (A B : List Row) (b : Row)
    (hAno : ∀ r ∈ A, r.no ≠ none) (hAst : ∀ r ∈ A, r.status ≠ none)
    (hbno : b.no ≠ none) (hbst : b.status = none)
    (hBno : ∀ r ∈ B, r.no ≠ none) :
    unifyCore (enumFromL 0 (A ++ b :: B)) =
      Except.ok (enumFromL 0 A ++
        (enumFromL A.length (b :: B)).map (fun x => (x.1, remapRow x.2))) := by
  have hcontent : enumFromL 0 (A ++ b :: B) =
      enumFromL 0 A ++ enumFromL A.length (b :: B) := by
    rw [enumFromL_append, Nat.zero_add]
  have hbB : ∀ r ∈ b :: B, r.no ≠ none := by
    intro r hr
    rcases List.mem_cons.mp hr with h | h
    · subst h; exact hbno
    · exact hBno r h
  have hno : isnaIdx Row.no (enumFromL 0 (A ++ b :: B)) = [] := by
    rw [hcontent, isnaIdx_append, isnaIdx_enumFromL_eq_nil _ _ _ hAno,
      isnaIdx_enumFromL_eq_nil _ _ _ hbB]
    rfl
  have hst : isnaIdx Row.status (enumFromL 0 (A ++ b :: B)) =
      A.length :: isnaIdx Row.status (enumFromL (A.length + 1) B) := by
    rw [hcontent, isnaIdx_append, isnaIdx_enumFromL_eq_nil _ _ _ hAst,
      List.nil_append,
      show enumFromL A.length (b :: B) =
        (A.length, b) :: enumFromL (A.length + 1) B from rfl,
      isnaIdx_cons]
    simp [hbst]
  have hsize : (enumFromL 0 (A ++ b :: B)).length =
      A.length + (b :: B).length := by
    rw [enumFromL_length, List.length_append]
  simp only [unifyCore, hno]
  rw [if_neg (show ¬(0 < ([] : List ℕ).length) by simp), hst,
    if_pos (show 0 < ((A.length :: isnaIdx Row.status
      (enumFromL (A.length + 1) B)).length) by simp),
    List.headD_cons, hsize, hcontent]
  exact subTableRemap_compute A (b :: B) A.length (Nat.le_refl _)

theorem unifyCore_no_branch (A B : List Row) (s1 s2 : Row)
    (hAno : ∀ r ∈ A, r.no ≠ none) (hs1 : s1.no = none) (hs2 : s2.no ≠ none)
    (hBno : ∀ r ∈ B, r.no ≠ none) :
    unifyCore (enumFromL 0 (A ++ s1 :: s2 :: B)) =
      Except.ok (enumFromL 0 A ++
        (enumFromL (A.length + 2) B).map (fun x => (x.1, remapRow x.2))) := by
  have hcontent : enumFromL 0 (A ++ s1 :: s2 :: B) =
      enumFromL 0 A ++ (A.length, s1) :: (A.length + 1, s2) ::
        enumFromL (A.length + 2) B := by
    rw [enumFromL_append, Nat.zero_add]
    rfl
  have hno : isnaIdx Row.no (enumFromL 0 (A ++ s1 :: s2 :: B)) =
      [A.length] := by
    rw [hcontent, isnaIdx_append, isnaIdx_enumFromL_eq_nil _ _ _ hAno,
      List.nil_append, isnaIdx_cons, isnaIdx_cons,
      isnaIdx_enumFromL_eq_nil _ _ _ hBno]
    simp [hs1, hs2, Option.isNone_iff_eq_none]
  have hfA1 : (enumFromL 0 A).filter
      (fun x => !(decide (x.1 ∈ ([A.length] : List ℕ)))) = enumFromL 0 A := by
    apply filter_enumFromL_true
    intro x hx
    have hb2 := (mem_enumFromL hx).2.1
    have hne : ¬(x.1 = A.length) := by omega
    simp [hne]
  have hfB1 : (enumFromL (A.length + 2) B).filter
      (fun x => !(decide (x.1 ∈ ([A.length] : List ℕ)))) =
        enumFromL (A.length + 2) B := by
    apply filter_enumFromL_true
    intro x hx
    have hb1 := (mem_enumFromL hx).1
    have hne : ¬(x.1 = A.length) := by omega
    simp [hne]
  have hdrop1 : dropLabels (enumFromL 0 (A ++ s1 :: s2 :: B)) [A.length] =
      Except.ok (enumFromL 0 A ++ (A.length + 1, s2) ::
        enumFromL (A.length + 2) B) := by
    have hall : (([A.length] : List ℕ).all (fun l =>
        decide (l ∈ labels (enumFromL 0 A ++ (A.length, s1) ::
          (A.length + 1, s2) :: enumFromL (A.length + 2) B)))) = true := by
      simp only [List.all_cons, List.all_nil, Bool.and_true,
        decide_eq_true_eq]
      rw [labels_append]
      exact List.mem_append_right _ (List.mem_cons_self _ _)
    have hc2 : ¬((A.length + 1 : ℕ) = A.length) := by omega
    rw [hcontent]
    simp only [dropLabels, hall, if_true]
    rw [List.filter_append, List.filter_cons, List.filter_cons, hfA1, hfB1]
    simp [hc2]
  have hfA2 : (enumFromL 0 A).filter
      (fun x => !(decide (x.1 ∈ ([A.length + 1] : List ℕ)))) =
        enumFromL 0 A := by
    apply filter_enumFromL_true
    intro x hx
    have hb2 := (mem_enumFromL hx).2.1
    have hne : ¬(x.1 = A.length + 1) := by omega
    simp [hne]
  have hfB2 : (enumFromL (A.length + 2) B).filter
      (fun x => !(decide (x.1 ∈ ([A.length + 1] : List ℕ)))) =
        enumFromL (A.length + 2) B := by
    apply filter_enumFromL_true
    intro x hx
    have hb1 := (mem_enumFromL hx).1
    have hne : ¬(x.1 = A.length + 1) := by omega
    simp [hne]
  have hdrop2 : dropLabels (enumFromL 0 A ++ (A.length + 1, s2) ::
      enumFromL (A.length + 2) B) [A.length + 1] =
        Except.ok (enumFromL 0 A ++ enumFromL (A.length + 2) B) := by
    have hall : (([A.length + 1] : List ℕ).all (fun l =>
        decide (l ∈ labels (enumFromL 0 A ++ (A.length + 1, s2) ::
          enumFromL (A.length + 2) B)))) = true := by
      simp only [List.all_cons, List.all_nil, Bool.and_true,
        decide_eq_true_eq]
      rw [labels_append]
      exact List.mem_append_right _ (List.mem_cons_self _ _)
    simp only [dropLabels, hall, if_true]
    rw [List.filter_append, List.filter_cons, hfA2, hfB2]
    simp
  have hsize : (enumFromL 0 (A ++ s1 :: s2 :: B)).length =
      A.length + 1 + 1 + B.length := by
    rw [enumFromL_length, List.length_append]
    simp only [List.length_cons]
    omega
  simp only [unifyCore, hno]
  rw [if_pos (show 0 < ([A.length] : List ℕ).length by simp), hdrop1]
  simp only [List.map_cons, List.map_nil]
  rw [hdrop2, hsize]
  exact subTableRemap_compute A B (A.length + 1 + 1) (by omega)

/-! ## Claims about the aggregator -/

/-- C1 (counterexample): the claim promises the credit-weighted mean for
every record set without in-progress records, but on a non-empty set whose
records all carry credit 0 the unguarded division of `calculating_gpa` is
reached with denominator Σ(credit) = 0, so the result is the division-error
value and not the score of any number — in particular not the score of the
claim's formula Σ(grade·credit)/Σ(credit) (which, read with total rational
division, evaluates to 0 here). -/
theorem C1_counterexample :
    calculating_gpa [zeroCreditRec] "overall" [] none = GPAResult.divByZero ∧
    GPAResult.divByZero ≠ GPAResult.score
      ((([zeroCreditRec].map (fun r => r.grade * r.credit)).sum) /
        (([zeroCreditRec].map (fun r => r.credit)).sum)) := by
  constructor
  · have h2 : calculating_gpa [zeroCreditRec] "overall" [] none =
        finishGPA [zeroCreditRec] := rfl
    have hS : statusFilter [zeroCreditRec] = [zeroCreditRec] := by decide
    rw [h2]
    simp only [finishGPA, hS]
    norm_num [zeroCreditRec, List.map_cons, List.map_nil, List.sum_cons,
      List.sum_nil]
  · simp

/-- C1 (amended): for every record set R without `Studying` / `Not started`
records and with non-zero total credit, `calculating_gpa` in overall mode
with an empty exemption list returns exactly the credit-weighted mean
Σ(grade·credit)/Σ(credit) over R; and on the two-record spec scenario the
result is exactly (4·3+3·3)/(3+3) = 7/2 = 3.5. -/
theorem C1_amended :
    (∀ R : List GRecord,
        (∀ r ∈ R, r.status ≠ "Studying" ∧ r.status ≠ "Not started") →
        (R.map (fun r => r.credit)).sum ≠ 0 →
        calculating_gpa R "overall" [] none =
          GPAResult.score ((R.map (fun r => r.grade * r.credit)).sum /
            (R.map (fun r => r.credit)).sum)) ∧
    calculating_gpa [csc101, mat101] "overall" [] none =
      GPAResult.score (7 / 2) := by
  constructor
  · intro R hstatus hsum
    have hsf : statusFilter R = R := by
      rw [statusFilter, List.filter_eq_self]
      intro r hrR
      rcases hstatus r hrR with ⟨h1, h2⟩
      simp [excludedStatus, h1, h2]
    have hR : ¬(R.length = 0) := by
      intro h
      rw [List.length_eq_zero] at h
      subst h
      simp at hsum
    have hcalc : calculating_gpa R "overall" [] none = finishGPA R := rfl
    rw [hcalc]
    simp only [finishGPA, hsf]
    rw [if_neg hR, if_neg hsum]
  · have h2 : calculating_gpa [csc101, mat101] "overall" [] none =
        finishGPA [csc101, mat101] := rfl
    have hS : statusFilter [csc101, mat101] = [csc101, mat101] := by decide
    rw [h2]
    simp only [finishGPA, hS]
    norm_num [csc101, mat101, List.map_cons, List.map_nil, List.sum_cons,
      List.sum_nil]

/-- C1 (witness): the amended theorem applied to the concrete two-record
scenario of the spec. -/
theorem C1_witness :
    calculating_gpa [csc101, mat101] "overall" [] none =
      GPAResult.score ((([csc101, mat101].map (fun r => r.grade * r.credit)).sum) /
        (([csc101, mat101].map (fun r => r.credit)).sum)) :=
  C1_amended.1 [csc101, mat101] (by decide)
    (by norm_num [csc101, mat101, List.map_cons, List.map_nil, List.sum_cons,
      List.sum_nil])

/-- C3: for every record set, exemption list and prefix P in that list, every
record surviving the exemption loop of `calculating_gpa` has a subject code
that does not contain P as a substring (the later semester and status filters
only remove further records, so the same holds for the aggregated set). -/
theorem C3_no_exempt_substring (td : List GRecord) (el : List String)
    (P : String) (r : GRecord) :
    P ∈ el → r ∈ exemptionFilter el td →
    hasSubstr r.subjectCode P = false := by
  induction el generalizing td with
  | nil => intro hP _; cases hP
  | cons s el ih =>
    intro hP hr
    rw [exemptionFilter_cons_subject] at hr
    rcases List.mem_cons.mp hP with h | h
    · subst h
      have hsub : r ∈ td.filter (fun x => !(hasSubstr x.subjectCode P)) :=
        exemptionFilter_subset _ _ r hr
      have h2 := List.of_mem_filter hsub
      simpa using h2
    · exact ih _ h hr

/-- C3 (witness): with exemption list `["CSC"]`, the surviving record
`mat101` does not contain `"CSC"` in its subject code. -/
theorem C3_witness : hasSubstr mat101.subjectCode "CSC" = false :=
  C3_no_exempt_substring [csc101, mat101] ["CSC"] "CSC" mat101
    (by decide) (by decide)

theorem calculating_gpa_one_sem (td : List GRecord) (el : List String)
    (L : String) (hL : L ≠ "") :
    calculating_gpa td "one semester" el (some L) =
      finishGPA (semesterFilter "one semester" (some L)
        (exemptionFilter el td)) := by
  have hc : (("one semester" == "one semester") && truthy (some L)) = true := by
    simp [truthy, hL]
  simp only [calculating_gpa, hc]
  simp

/-- C4 (counterexample): with the semester label `""`, one-semester mode does
not restrict to records whose semester equals the label: the record `csc101`
(semester `"Fall2023" ≠ ""`) still changes the result, so the GPA is not
aggregated only over records with `semester_label = ""`. -/
theorem C4_counterexample :
    calculating_gpa [csc101] "one semester" [] (some "") = GPAResult.score 4 ∧
    calculating_gpa [] "one semester" [] (some "") = GPAResult.score 0 ∧
    csc101.semester ≠ "" := by
  refine ⟨?_, rfl, by decide⟩
  have h2 : calculating_gpa [csc101] "one semester" [] (some "") =
      finishGPA [csc101] := rfl
  have hS : statusFilter [csc101] = [csc101] := by decide
  rw [h2]
  simp only [finishGPA, hS]
  norm_num [csc101, List.map_cons, List.map_nil, List.sum_cons, List.sum_nil]

/-- C4 (amended): for every non-empty semester label L, one-semester mode
aggregates only over records whose `semester` equals L exactly — inserting a
record with a different label (e.g. `"Fall2024"` against `"Fall2023"`) never
changes the result; on the spec scenario the Fall2023 GPA is exactly 4, also
in the presence of a Fall2024 record. -/
theorem C4_amended :
    (∀ (td : List GRecord) (el : List String) (L : String) (r : GRecord),
        L ≠ "" → r.semester ≠ L →
        calculating_gpa (r :: td) "one semester" el (some L) =
          calculating_gpa td "one semester" el (some L)) ∧
    calculating_gpa [csc101, mat101] "one semester" [] (some "Fall2023") =
      GPAResult.score 4 ∧
    calculating_gpa [csc101, phy201] "one semester" [] (some "Fall2023") =
      GPAResult.score 4 := by
  refine ⟨?_, ?_, ?_⟩
  · intro td el L r hL hr
    have hc : (("one semester" == "one semester") && truthy (some L)) = true := by
      simp [truthy, hL]
    rw [calculating_gpa_one_sem (r :: td) el L hL,
      calculating_gpa_one_sem td el L hL, exemptionFilter_cons]
    by_cases hp : passesExemption el r = true
    · rw [if_pos hp, semesterFilter_cons_ne _ hc (by simpa using hr)]
    · rw [if_neg hp]
  · rw [calculating_gpa_one_sem _ _ _ (by decide)]
    have hA : semesterFilter "one semester" (some "Fall2023")
        (exemptionFilter [] [csc101, mat101]) = [csc101] := by decide
    have hS : statusFilter [csc101] = [csc101] := by decide
    rw [hA]
    simp only [finishGPA, hS]
    norm_num [csc101, List.map_cons, List.map_nil, List.sum_cons, List.sum_nil]
  · rw [calculating_gpa_one_sem _ _ _ (by decide)]
    have hA : semesterFilter "one semester" (some "Fall2023")
        (exemptionFilter [] [csc101, phy201]) = [csc101] := by decide
    have hS : statusFilter [csc101] = [csc101] := by decide
    rw [hA]
    simp only [finishGPA, hS]
    norm_num [csc101, List.map_cons, List.map_nil, List.sum_cons, List.sum_nil]

/-- C4 (witness): inserting the Spring2024 record `mat101` leaves the
Fall2023 one-semester GPA unchanged. -/
theorem C4_witness :
    calculating_gpa [mat101] "one semester" [] (some "Fall2023") =
      calculating_gpa [] "one semester" [] (some "Fall2023") :=
  C4_amended.1 [] [] "Fall2023" mat101 (by decide) (by decide)

/-- C5: a record whose status is `Studying` or `Not started` contributes to
neither the numerator nor the denominator of `calculating_gpa`, under every
mode, exemption list and semester argument: inserting such a record leaves
the result unchanged. -/
theorem C5_in_progress_never_counts (td : List GRecord) (mode : String)
    (el : List String) (sem : Option String) (r : GRecord)
    (h : r.status = "Studying" ∨ r.status = "Not started") :
    calculating_gpa (r :: td) mode el sem = calculating_gpa td mode el sem := by
  have hex : excludedStatus r = true := by
    rcases h with h | h <;> simp [excludedStatus, h]
  simp only [calculating_gpa]
  rw [exemptionFilter_cons]
  by_cases hp : passesExemption el r = true
  · rw [if_pos hp]
    split
    · rcases semesterFilter_cons_or mode sem r (exemptionFilter el td) with
        h1 | h1
      · rw [h1]
        exact finishGPA_congr (statusFilter_cons_excluded _ hex)
      · rw [h1]
    · split
      · rfl
      · exact finishGPA_congr (statusFilter_cons_excluded _ hex)
  · rw [if_neg hp]

/-- C5 (witness): inserting an in-progress record into the empty transcript
leaves the overall GPA unchanged. -/
theorem C5_witness :
    calculating_gpa [studyingRec] "overall" [] none =
      calculating_gpa [] "overall" [] none :=
  C5_in_progress_never_counts [] "overall" [] none studyingRec (Or.inl rfl)

/-- C6: on every computing path (i.e. except the missing-semester-parameter
short-circuit), if the exemption, semester and status filters together
remove all records, `calculating_gpa` returns exactly the number 0. -/
theorem C6_all_filtered_gives_zero (td : List GRecord) (mode : String)
    (el : List String) (sem : Option String)
    (hmode : ¬(mode = "one semester" ∧ sem = none))
    (h : filteredRecords td mode el sem = []) :
    calculating_gpa td mode el sem = GPAResult.score 0 := by
  rw [filteredRecords] at h
  simp only [calculating_gpa]
  split
  · exact finishGPA_statusFilter_nil h
  · split
    · rename_i hc1 hc2
      exfalso
      apply hmode
      have hab := (Bool.and_eq_true _ _).mp hc2
      refine ⟨beq_iff_eq.mp hab.1, ?_⟩
      exact Option.isNone_iff_eq_none.mp hab.2
    · rename_i hc1 hc2
      apply finishGPA_statusFilter_nil
      rw [semesterFilter_inactive _ (Bool.eq_false_iff.mpr hc1)] at h
      exact h

/-- C6 (witness): exempting `"CSC"` removes the only record, and the result
is the numeric score 0. -/
theorem C6_witness :
    calculating_gpa [csc101] "overall" ["CSC"] none = GPAResult.score 0 :=
  C6_all_filtered_gives_zero [csc101] "overall" ["CSC"] none
    (by decide) (by decide)

/-- C7: in one-semester mode with the semester label absent, `calculating_gpa`
short-circuits and returns the no-result sentinel, which is distinct from
every numeric GPA value (including the score 0). -/
theorem C7_missing_label_sentinel :
    (∀ (td : List GRecord) (el : List String),
        calculating_gpa td "one semester" el none = GPAResult.noResult) ∧
    ∀ q : ℚ, decide (GPAResult.noResult = GPAResult.score q) = false := by
  constructor
  · intro td el; rfl
  · intro q; rfl

/-- C8: the final division of `calculating_gpa` is not guarded against a zero
divisor: on a non-empty post-filter set whose records all carry credit 0 the
division Σ(grade·credit)/Σ(credit) is reached with denominator exactly 0,
i.e. the explicit division-error branch of the embedding is reachable. -/
theorem C8_unguarded_division :
    calculating_gpa [zeroCreditRecB] "overall" [] none =
      GPAResult.divByZero := by
  have h2 : calculating_gpa [zeroCreditRecB] "overall" [] none =
      finishGPA [zeroCreditRecB] := rfl
  have hS : statusFilter [zeroCreditRecB] = [zeroCreditRecB] := by decide
  rw [h2]
  simp only [finishGPA, hS]
  norm_num [zeroCreditRecB, List.map_cons, List.map_nil, List.sum_cons,
    List.sum_nil]

/-- C10: in one-semester mode with the semester label present but equal to
the empty string, `calculating_gpa` neither signals the missing-parameter
error nor filters by semester: the result is exactly the overall-mode result
over all semesters, and it is never the no-result sentinel. -/
theorem C10_empty_label_skips_filter :
    ∀ (td : List GRecord) (el : List String),
      calculating_gpa td "one semester" el (some "") =
        calculating_gpa td "overall" el none ∧
      decide (calculating_gpa td "one semester" el (some "") =
        GPAResult.noResult) = false := by
  intro td el
  constructor
  · rfl
  · have h : calculating_gpa td "one semester" el (some "") =
        finishGPA (exemptionFilter el td) := rfl
    rw [h]
    exact finishGPA_ne_noResult _

/-! ## Claims about the normalizer -/

/-- C2 (counterexample): on a table whose sub-table boundary comes from a
blank `Status` field (no blank `No` anywhere), `_unify_n_fillna` discards no
rows at all: the output still has all 4 rows, while the claim — which says
exactly the first two rows at/after the boundary are discarded and the rest
preserved — would give a table of 4 - 2 = 2 rows. -/
theorem C2_counterexample :
    (normalize [crMain, crSub1, crSub2, crSub3]).map List.length =
      Except.ok 4 ∧
    (4 : ℕ) ≠ [crMain, crSub1, crSub2, crSub3].length - 2 := by
  exact ⟨rfl, by decide⟩

/-- C2 (amended): the two-row discard happens only on the blank-`No` path.
(1) When no row has a blank `No` and the boundary is the first blank-`Status`
row, nothing is discarded: every row from the boundary row itself onward is
promoted by the exact column remapping (with `Term = 0` and `prerequisite` /
`Replaced Subject` blanked), the earlier rows and all labels and order are
preserved, and all rows get the missing-credit/grade fill.  (2) When the
boundary is a blank-`No` row — a single one, not the last row — that row and
its successor are discarded and exactly the rows after them are promoted the
same way. -/
theorem C2_amended :
    (∀ (A B : List Row) (b : Row),
        (∀ r ∈ A, r.no ≠ none) → (∀ r ∈ A, r.status ≠ none) →
        b.no ≠ none → b.status = none → (∀ r ∈ B, r.no ≠ none) →
        normalize (A ++ b :: B) =
          Except.ok (fillna (enumFromL 0 A ++
            (enumFromL A.length (b :: B)).map
              (fun x => (x.1, remapRow x.2))))) ∧
    (∀ (A B : List Row) (s1 s2 : Row),
        (∀ r ∈ A, r.no ≠ none) → s1.no = none → s2.no ≠ none →
        (∀ r ∈ B, r.no ≠ none) →
        normalize (A ++ s1 :: s2 :: B) =
          Except.ok (fillna (enumFromL 0 A ++
            (enumFromL (A.length + 2) B).map
              (fun x => (x.1, remapRow x.2))))) := by
  constructor
  · intro A B b h1 h2 h3 h4 h5
    rw [normalize, unify_n_fillna,
      unifyCore_status_branch A B b h1 h2 h3 h4 h5]
    rfl
  · intro A B s1 s2 h1 h2 h3 h4
    rw [normalize, unify_n_fillna,
      unifyCore_no_branch A B s1 s2 h1 h2 h3 h4]
    rfl

/-- C2 (witness): the amended theorem applied to the concrete two-row table
`[crMain, crSub1]`, whose second row has a blank `Status`: the row is
remapped in place, no row is discarded. -/
theorem C2_witness :
    normalize ([crMain] ++ crSub1 :: []) =
      Except.ok (fillna (enumFromL 0 [crMain] ++
        (enumFromL (List.length [crMain]) (crSub1 :: [])).map
          (fun x => (x.1, remapRow x.2)))) :=
  C2_amended.1 [crMain] [] crSub1 (by decide) (by decide) (by decide)
    (by decide) (by decide)

/-- C9: whenever the normalizer succeeds, every record of the returned table
has a non-null Credit and a non-null Grade (missing ones were filled
with 0). -/
theorem C9_credit_grade_filled (content : List Row) (t : List (ℕ × Row))
    (x : ℕ × Row) (h : normalize content = Except.ok t) (hx : x ∈ t) :
    (x.2.credit).isSome = true ∧ (x.2.grade).isSome = true := by
  rw [normalize, unify_n_fillna] at h
  cases hc : unifyCore (enumFromL 0 content) with
  | error e =>
    rw [hc] at h
    simp [Except.map] at h
  | ok c =>
    rw [hc] at h
    simp only [Except.map] at h
    cases h
    rcases List.mem_map.mp hx with ⟨y, hy, hxy⟩
    subst hxy
    simp [fillRow]

/-- C9 (witness): the theorem applied to a concrete table whose second row
has blank Credit and Grade cells; the returned record carries both fields. -/
theorem C9_witness :
    (((1 : ℕ), fillRow crMissing).2.credit).isSome = true ∧
    (((1 : ℕ), fillRow crMissing).2.grade).isSome = true :=
  C9_credit_grade_filled [crMain, crMissing]
    (fillna (enumFromL 0 [crMain, crMissing])) (1, fillRow crMissing)
    rfl (by decide)

end GPACalc
